import Mathlib

/-!
Verification of the Ollama chat adapter
(`src/aisuite/providers/ollama_provider.py`).

The adapter builds a JSON payload from keyword arguments, issues one HTTP
POST, classifies failures into a single provider error kind (`LLMError`),
and normalizes the JSON response into a shared `ChatCompletionResponse`
shape.  This file gives a shallow embedding of that code: Python dicts
become association lists with Python `dict` semantics (unique keys,
insertion order, in-place overwrite), JSON values become an inductive
`Val`, the HTTP transport becomes an explicit outcome datum, and raised
exceptions become an `Except` error type distinguishing the adapter's own
`LLMError` from foreign exceptions that escape uncaught.
-/

set_option autoImplicit false

namespace Ollama

/-- A JSON-like Python value: `None`, booleans, integers, strings, lists
and string-keyed dicts (as ordered association lists). -/
inductive Val where
  | vnull : Val
  | vbool : Bool → Val
  | vnum : Int → Val
  | vstr : String → Val
  | vlist : List Val → Val
  | vobj : List (String × Val) → Val
  deriving Repr

/-- A Python dict with string keys, modelled as an ordered association
list whose operations keep keys unique (as Python dicts do). -/
abbrev Dict : Type := List (String × Val)

namespace Dict

/-- Python `d[k]` / `d.get(k)`: the value at key `k`, if present. -/
def get? (d : Dict) (k : String) : Option Val :=
  match d with
  | [] => none
  | (k', v) :: rest => if k' = k then some v else get? rest k

/-- Python `k in d`. -/
def contains (d : Dict) (k : String) : Bool :=
  (get? d k).isSome

/-- Removal of key `k`, as performed by Python `d.pop(k)` (on a dict the
key occurs at most once; this removes every occurrence). -/
def erase (d : Dict) (k : String) : Dict :=
  match d with
  | [] => []
  | (k', v) :: rest => if k' = k then erase rest k else (k', v) :: erase rest k

/-- Python `d[k] = v`: overwrite in place when the key exists (keeping its
position, as Python dicts do), otherwise append the new entry. -/
def insert (d : Dict) (k : String) (v : Val) : Dict :=
  if contains d k then
    List.map (fun p => if p.1 = k then (k, v) else p) d
  else
    d ++ [(k, v)]

/-- Python `d.update(e)`: insert every entry of `e` into `d`, in order. -/
def update (d e : Dict) : Dict :=
  List.foldl (fun acc p => insert acc p.1 p.2) d e

/-- The list of keys of the dict, in order. -/
def keys (d : Dict) : List String :=
  List.map Prod.fst d

/-- Python truthiness test `if d:` for a dict. -/
def isEmpty (d : Dict) : Bool :=
  match d with
  | [] => true
  | _ :: _ => false

end Dict

/-! ### Payload construction (`chat_completions_create`, lines 35-56) -/

/-- The six recognized option keys of the `for key in [...]` loop
(line 48 of the source). -/
def optionKeys : List String :=
  ["temperature", "top_p", "seed", "stop", "num_predict", "top_k"]

/-- The initial payload `{"model": model, "messages": messages,
"stream": False}` (lines 35-39). -/
def basePayload (model messages : Val) : Dict :=
  [("model", model), ("messages", messages), ("stream", Val.vbool false)]

/-- Lines 42-43: if `tools` is in kwargs it is popped onto the payload;
this is the payload after that step. -/
def payloadAfterTools (model messages : Val) (kwargs : Dict) : Dict :=
  match Dict.get? kwargs "tools" with
  | some t => Dict.insert (basePayload model messages) "tools" t
  | none => basePayload model messages

/-- Lines 42-43: the kwargs after `tools` has been popped (unchanged when
`tools` is absent). -/
def kwargsAfterTools (kwargs : Dict) : Dict :=
  match Dict.get? kwargs "tools" with
  | some _ => Dict.erase kwargs "tools"
  | none => kwargs

/-- The option-collecting loop of lines 47-50: for each key of `keys`
present in `kwargs`, pop it from `kwargs` into `options`.  Returns the
final `(options, kwargs)` pair. -/
def collectOptions (keys : List String) (options kwargs : Dict) : Dict × Dict :=
  match keys with
  | [] => (options, kwargs)
  | k :: rest =>
    match Dict.get? kwargs k with
    | some v => collectOptions rest (Dict.insert options k v) (Dict.erase kwargs k)
    | none => collectOptions rest options kwargs

/-- The `options` dict accumulated by lines 47-50. -/
def optionsDict (kwargs : Dict) : Dict :=
  (collectOptions optionKeys [] (kwargsAfterTools kwargs)).1

/-- The kwargs remaining after lines 42-50 consumed `tools` and the six
option keys; these are merged into the payload at line 56. -/
def remainingKwargs (kwargs : Dict) : Dict :=
  (collectOptions optionKeys [] (kwargsAfterTools kwargs)).2

/-- The full request payload built by lines 35-56: base payload, `tools`
moved to the top level, non-empty `options` attached, then
`payload.update(kwargs)` with the remaining kwargs. -/
def chat_payload (model messages : Val) (kwargs : Dict) : Dict :=
  Dict.update
    (if Dict.isEmpty (optionsDict kwargs) then
      payloadAfterTools model messages kwargs
    else
      Dict.insert (payloadAfterTools model messages kwargs) "options"
        (Val.vobj (optionsDict kwargs)))
    (remainingKwargs kwargs)

/-! ### URL resolution (`__init__` lines 22-24, request line 59-63) -/

/-- The literal default base URL (line 23). -/
def defaultApiUrl : String := "http://localhost:11434"

/-- The fixed chat endpoint path `_CHAT_COMPLETION_ENDPOINT` (line 15). -/
def chatCompletionEndpoint : String := "/api/chat"

/-- Line 22-24: `config.get("api_url") or os.getenv("OLLAMA_API_URL",
default)`.  `apiUrl` is the config value (`none` when absent or `None`);
`envVar` is the `OLLAMA_API_URL` environment variable (`none` when
unset, `some ""` when set to the empty string — `os.getenv` returns the
default only when the variable is unset).  Python `or` falls through on a
falsy (empty) string. -/
def resolve_api_url (apiUrl envVar : Option String) : String :=
  match apiUrl with
  | some s => if s = "" then envVar.getD defaultApiUrl else s
  | none => envVar.getD defaultApiUrl

/-- Python `url.rstrip("/")`: remove every trailing slash character. -/
def rstripSlashes (s : String) : String :=
  String.mk (List.reverse (List.dropWhile (fun c => c = '/') (List.reverse s.data)))

/-- The outbound request target of line 60:
`self.url.rstrip("/") + self._CHAT_COMPLETION_ENDPOINT`. -/
def request_url (url : String) : String :=
  rstripSlashes url ++ chatCompletionEndpoint

/-! ### Python string conversion for error interpolation -/

mutual

/-- Python `repr` of a value, as used for elements nested in containers
when an f-string stringifies them. -/
def Val.pyRepr : Val → String
  | Val.vnull => "None"
  | Val.vbool true => "True"
  | Val.vbool false => "False"
  | Val.vnum n => toString n
  | Val.vstr s => "\x27" ++ s ++ "\x27"
  | Val.vlist xs => "[" ++ String.intercalate ", " (pyReprList xs) ++ "]"
  | Val.vobj fs => "\x7b" ++ String.intercalate ", " (pyReprFields fs) ++ "\x7d"

/-- Helper of `Val.pyRepr` for list elements. -/
def pyReprList : List Val → List String
  | [] => []
  | v :: vs => Val.pyRepr v :: pyReprList vs

/-- Helper of `Val.pyRepr` for dict entries. -/
def pyReprFields : List (String × Val) → List String
  | [] => []
  | (k, v) :: fs => ("\x27" ++ k ++ "\x27: " ++ Val.pyRepr v) :: pyReprFields fs

end

/-- Python `str(x)` as applied by an f-string: a string renders as its own
content, any other value as its `repr`. -/
def Val.pyStr : Val → String
  | Val.vstr s => s
  | v => Val.pyRepr v

/-! ### HTTP exchange and error classification (lines 58-83) -/

/-- An HTTP response as `httpx` delivers it.  `jsonBody` is the result of
`response.json()`: `none` when the body does not parse as JSON (the call
raises), `some v` otherwise; `text` is the raw body text. -/
structure HttpResponse where
  status_code : Nat
  text : String
  jsonBody : Option Val
  deriving Repr

/-- The possible outcomes of the `httpx.post` call of lines 59-63: a
response was received, or the transport raised `httpx.ConnectError`,
`httpx.HTTPStatusError`, or some other exception (carrying its
description as interpolated by an f-string). -/
inductive TransportOutcome where
  | ok : HttpResponse → TransportOutcome
  | connectError : TransportOutcome
  | httpStatusError : String → TransportOutcome
  | otherException : String → TransportOutcome
  deriving Repr

/-- An exception escaping `chat_completions_create` to the caller:
either the adapter's own `LLMError` (modelled from the spec: a single
provider error kind from `aisuite.provider` carrying only a message
string), or a foreign exception that no handler catches — the
`json.JSONDecodeError` from `response.json()` on line 83 and the
`AttributeError` from `.get` on a non-dict in `_normalize_response`,
both of which sit outside the `try` block of lines 58-80. -/
inductive PyErr where
  | llmError : String → PyErr
  | jsonDecodeError : String → PyErr
  | attributeError : String → PyErr
  deriving Repr, DecidableEq

/-- The `_CONNECT_ERROR_MESSAGE` constant (line 16). -/
def connectErrorMessage : String :=
  "Ollama is likely not running. Start Ollama by running `ollama serve` on your host."

/-- Lines 66-69: `error_detail = response.json().get("error",
response.text)` with any exception (JSON parse failure, or `.get` on a
non-dict) falling back to `response.text`. -/
def errorDetail (r : HttpResponse) : Val :=
  match r.jsonBody with
  | some (Val.vobj fields) => (Dict.get? fields "error").getD (Val.vstr r.text)
  | _ => Val.vstr r.text

/-! ### Response normalization (`_normalize_response`, lines 85-99) -/

/-- Modelled from the spec: the message held by the single choice of the
shared `ChatCompletionResponse` container (`aisuite.framework`, not in
the sources), with a `content` field and a `tool_calls` field that stays
unset (`none`) unless assigned. -/
structure Message where
  content : Val
  tool_calls : Option Val
  deriving Repr

/-- Modelled from the spec: one choice of the shared response container,
holding a message. -/
structure Choice where
  message : Message
  deriving Repr

/-- Modelled from the spec: the shared `ChatCompletionResponse` container
(`aisuite.framework`, not in the sources) — a container with
`choices[0].message.content` and `choices[0].message.tool_calls`. -/
structure ChatCompletionResponse where
  choices : List Choice
  deriving Repr

/-- Lines 85-99: read the `message` sub-object (defaulting to `{}` when
the key is absent), set the single choice's `content` to
`message.get("content", "")`, and set `tool_calls` only when the key is
present.  When the response data or a present `message` value is not a
dict, the `.get` call raises an `AttributeError`, which nothing catches
(the call on line 83 sits outside the `try` block). -/
def normalize_response (response_data : Val) : Except PyErr ChatCompletionResponse :=
  match response_data with
  | Val.vobj fields =>
    match (Dict.get? fields "message").getD (Val.vobj []) with
    | Val.vobj message_data =>
      let content := (Dict.get? message_data "content").getD (Val.vstr "")
      let tool_calls := Dict.get? message_data "tool_calls"
      Except.ok ⟨[⟨⟨content, tool_calls⟩⟩]⟩
    | _ => Except.error (PyErr.attributeError "value has no attribute get")
  | _ => Except.error (PyErr.attributeError "value has no attribute get")

/-- The `try`/`except` of lines 58-83 applied to a transport outcome.
A received response with status ≠ 200 raises `LLMError` with the
status/detail message (the raise on line 70 passes unchanged through the
`except Exception` handler via its `isinstance` re-raise); a 200 response
reaches `raise_for_status()` (a no-op at 200) and then
`self._normalize_response(response.json())` on line 83, outside the
`try`, where a JSON parse failure escapes as `json.JSONDecodeError`.
`ConnectError`, `HTTPStatusError` and any other transport exception map
to `LLMError` with their respective messages (lines 73-80). -/
def handle_response (o : TransportOutcome) : Except PyErr ChatCompletionResponse :=
  match o with
  | TransportOutcome.ok r =>
    if r.status_code ≠ 200 then
      Except.error (PyErr.llmError
        ("Ollama request failed with status " ++ toString r.status_code ++ ": "
          ++ Val.pyStr (errorDetail r)))
    else
      match r.jsonBody with
      | some v => normalize_response v
      | none => Except.error (PyErr.jsonDecodeError r.text)
  | TransportOutcome.connectError =>
    Except.error (PyErr.llmError ("Connection failed: " ++ connectErrorMessage))
  | TransportOutcome.httpStatusError desc =>
    Except.error (PyErr.llmError ("Ollama request failed: " ++ desc))
  | TransportOutcome.otherException desc =>
    Except.error (PyErr.llmError ("An error occurred: " ++ desc))

/-- The whole `chat_completions_create` operation (lines 29-83): build
the payload from `model`, `messages` and `kwargs`, POST it to the request
target derived from the resolved base URL, and classify the outcome.
`transport` stands for the network: it maps the request target and the
JSON payload actually sent to the outcome of the `httpx.post` call. -/
def chat_completions_create (url : String) (model messages : Val) (kwargs : Dict)
    (transport : String → Dict → TransportOutcome) : Except PyErr ChatCompletionResponse :=
  handle_response (transport (request_url url) (chat_payload model messages kwargs))

/-! ### Lemmas about the dict operations -/

namespace Dict

theorem get?_eq_none_iff (d : Dict) (k : String) : get? d k = none ↔ k ∉ keys d := by
  induction d with
  | nil => simp [get?, keys]
  | cons p rest ih =>
    obtain ⟨k0, v0⟩ := p
    simp only [get?, keys, List.map_cons, List.mem_cons]
    by_cases h : k0 = k
    · subst h; simp
    · simp only [if_neg h, ih]
      constructor
      · intro hn hor
        rcases hor with h1 | h2
        · exact h h1.symm
        · exact hn h2
      · intro hn
        intro hk
        exact hn (Or.inr hk)

theorem get?_append (d e : Dict) (k : String) :
    get? (d ++ e) k = match get? d k with | some v => some v | none => get? e k := by
  induction d with
  | nil => simp [get?]
  | cons p rest ih =>
    obtain ⟨k0, v0⟩ := p
    by_cases h : k0 = k
    · subst h; simp [get?]
    · simp only [List.cons_append, get?, if_neg h]
      exact ih

theorem get?_map_overwrite (d : Dict) (k : String) (v : Val) :
    get? (List.map (fun p => if p.1 = k then (k, v) else p) d) k =
      Option.map (fun _ => v) (get? d k) := by
  induction d with
  | nil => simp [get?]
  | cons p rest ih =>
    obtain ⟨k0, v0⟩ := p
    simp only [List.map_cons]
    by_cases h : k0 = k
    · subst h
      rw [if_pos rfl]
      simp [get?]
    · rw [if_neg h]
      simp only [get?, if_neg h]
      exact ih

theorem get?_map_overwrite_ne (d : Dict) (k : String) (v : Val) (k' : String) (h : k ≠ k') :
    get? (List.map (fun p => if p.1 = k then (k, v) else p) d) k' = get? d k' := by
  induction d with
  | nil => rfl
  | cons p rest ih =>
    obtain ⟨k0, v0⟩ := p
    simp only [List.map_cons]
    by_cases h0 : k0 = k
    · subst h0
      rw [if_pos rfl]
      simp only [get?, if_neg h, if_neg h]
      exact ih
    · rw [if_neg h0]
      simp only [get?]
      by_cases h0' : k0 = k'
      · simp [h0']
      · simp only [if_neg h0']
        exact ih

theorem get?_insert_self (d : Dict) (k : String) (v : Val) :
    get? (insert d k v) k = some v := by
  unfold insert
  by_cases hc : contains d k = true
  · rw [if_pos hc, get?_map_overwrite]
    unfold contains at hc
    obtain ⟨w, hw⟩ := Option.isSome_iff_exists.mp hc
    rw [hw]
    rfl
  · rw [if_neg hc, get?_append]
    unfold contains at hc
    have hn : get? d k = none := by
      cases hg : get? d k with
      | none => rfl
      | some w => rw [hg] at hc; simp at hc
    rw [hn]
    simp [get?]

theorem get?_insert_ne (d : Dict) (k : String) (v : Val) (k' : String) (h : k ≠ k') :
    get? (insert d k v) k' = get? d k' := by
  unfold insert
  by_cases hc : contains d k = true
  · rw [if_pos hc]
    exact get?_map_overwrite_ne d k v k' h
  · rw [if_neg hc, get?_append]
    cases hg : get? d k' with
    | some w => rfl
    | none => simp [get?, h]

theorem get?_erase_self (d : Dict) (k : String) : get? (erase d k) k = none := by
  induction d with
  | nil => rfl
  | cons p rest ih =>
    obtain ⟨k0, v0⟩ := p
    unfold erase
    by_cases h : k0 = k
    · rw [if_pos h]
      exact ih
    · rw [if_neg h]
      simp only [get?, if_neg h]
      exact ih

theorem get?_erase_ne (d : Dict) (k k' : String) (h : k ≠ k') :
    get? (erase d k) k' = get? d k' := by
  induction d with
  | nil => rfl
  | cons p rest ih =>
    obtain ⟨k0, v0⟩ := p
    unfold erase
    by_cases h0 : k0 = k
    · rw [if_pos h0]
      have h0' : ¬ k0 = k' := by rw [h0]; exact h
      simp only [get?, if_neg h0']
      exact ih
    · rw [if_neg h0]
      by_cases h0' : k0 = k'
      · simp [get?, h0']
      · simp only [get?, if_neg h0']
        exact ih

theorem keys_erase_sublist (d : Dict) (k : String) :
    List.Sublist (keys (erase d k)) (keys d) := by
  induction d with
  | nil => simp [erase, keys]
  | cons p rest ih =>
    obtain ⟨k0, v0⟩ := p
    unfold erase
    by_cases h : k0 = k
    · rw [if_pos h]
      exact List.Sublist.trans ih (List.sublist_cons_self _ _)
    · rw [if_neg h]
      exact List.Sublist.cons₂ _ ih

theorem nodup_keys_erase (d : Dict) (k : String) (h : (keys d).Nodup) :
    (keys (erase d k)).Nodup :=
  List.Nodup.sublist (keys_erase_sublist d k) h

theorem get?_update_of_absent (d e : Dict) (k : String) (h : get? e k = none) :
    get? (update d e) k = get? d k := by
  induction e generalizing d with
  | nil => simp [update]
  | cons p rest ih =>
    obtain ⟨k0, v0⟩ := p
    have h0 : k0 ≠ k := by
      intro hk; subst hk
      simp [get?] at h
    have hrest : get? rest k = none := by
      simpa [get?, h0] using h
    show get? (update (insert d k0 v0) rest) k = get? d k
    rw [ih (insert d k0 v0) hrest, get?_insert_ne d k0 v0 k h0]

theorem get?_update_of_present (d e : Dict) (k : String) (v : Val)
    (hnd : (keys e).Nodup) (h : get? e k = some v) :
    get? (update d e) k = some v := by
  induction e generalizing d with
  | nil => simp [get?] at h
  | cons p rest ih =>
    obtain ⟨k0, v0⟩ := p
    simp only [keys, List.map_cons, List.nodup_cons] at hnd
    by_cases h0 : k0 = k
    · subst h0
      have hv : v0 = v := by simpa [get?] using h
      subst hv
      have hrest : get? rest k0 = none :=
        (get?_eq_none_iff rest k0).mpr hnd.1
      show get? (update (insert d k0 v0) rest) k0 = some v0
      rw [get?_update_of_absent (insert d k0 v0) rest k0 hrest,
        get?_insert_self]
    · have hrest : get? rest k = some v := by simpa [get?, h0] using h
      exact ih (insert d k0 v0) hnd.2 hrest

end Dict

/-! ### Lemmas about the option-collecting loop and payload pieces -/

theorem collectOptions_not_mem (ks : List String) (k : String) :
    ∀ (options kwargs : Dict), k ∉ ks →
      Dict.get? (collectOptions ks options kwargs).1 k = Dict.get? options k ∧
      Dict.get? (collectOptions ks options kwargs).2 k = Dict.get? kwargs k := by
  induction ks with
  | nil => intro options kwargs _; exact ⟨rfl, rfl⟩
  | cons k0 rest ih =>
    intro options kwargs hk
    have hk0 : k ≠ k0 := fun h => hk (h ▸ List.mem_cons_self k0 rest)
    have hkr : k ∉ rest := fun h => hk (List.mem_cons_of_mem k0 h)
    unfold collectOptions
    cases hg : Dict.get? kwargs k0 with
    | some v =>
      have hrec := ih (Dict.insert options k0 v) (Dict.erase kwargs k0) hkr
      refine ⟨?_, ?_⟩
      · rw [hrec.1, Dict.get?_insert_ne options k0 v k (Ne.symm hk0)]
      · rw [hrec.2, Dict.get?_erase_ne kwargs k0 k (Ne.symm hk0)]
    | none => exact ih options kwargs hkr

theorem collectOptions_mem (ks : List String) (k : String) :
    ∀ (options kwargs : Dict) (v : Val), k ∈ ks → ks.Nodup →
      Dict.get? kwargs k = some v →
      Dict.get? (collectOptions ks options kwargs).1 k = some v ∧
      Dict.get? (collectOptions ks options kwargs).2 k = none := by
  induction ks with
  | nil => intro _ _ _ hk; cases hk
  | cons k0 rest ih =>
    intro options kwargs v hk hnd hv
    rw [List.nodup_cons] at hnd
    unfold collectOptions
    by_cases h0 : k = k0
    · subst h0
      rw [hv]
      have hrec := collectOptions_not_mem rest k (Dict.insert options k v)
        (Dict.erase kwargs k) hnd.1
      refine ⟨?_, ?_⟩
      · rw [hrec.1, Dict.get?_insert_self]
      · rw [hrec.2, Dict.get?_erase_self]
    · have hkr : k ∈ rest := by
        rcases List.mem_cons.mp hk with h | h
        · exact absurd h h0
        · exact h
      cases hg : Dict.get? kwargs k0 with
      | some w =>
        refine ih (Dict.insert options k0 w) (Dict.erase kwargs k0) v hkr hnd.2 ?_
        rw [Dict.get?_erase_ne kwargs k0 k (fun hh => h0 hh.symm)]
        exact hv
      | none => exact ih options kwargs v hkr hnd.2 hv

theorem collectOptions_absent (ks : List String) (k : String) :
    ∀ (options kwargs : Dict), Dict.get? kwargs k = none →
      Dict.get? (collectOptions ks options kwargs).1 k = Dict.get? options k ∧
      Dict.get? (collectOptions ks options kwargs).2 k = none := by
  induction ks with
  | nil => intro options kwargs h; exact ⟨rfl, h⟩
  | cons k0 rest ih =>
    intro options kwargs h
    unfold collectOptions
    cases hg : Dict.get? kwargs k0 with
    | some w =>
      have hk0 : k0 ≠ k := by
        intro hh
        subst hh
        rw [h] at hg
        cases hg
      have h' : Dict.get? (Dict.erase kwargs k0) k = none := by
        rw [Dict.get?_erase_ne kwargs k0 k hk0]
        exact h
      have hrec := ih (Dict.insert options k0 w) (Dict.erase kwargs k0) h'
      refine ⟨?_, hrec.2⟩
      rw [hrec.1, Dict.get?_insert_ne options k0 w k hk0]
    | none => exact ih options kwargs h

theorem collectOptions_no_options (ks : List String) :
    ∀ (options kwargs : Dict), (∀ k, k ∈ ks → Dict.get? kwargs k = none) →
      (collectOptions ks options kwargs).1 = options := by
  induction ks with
  | nil => intro options kwargs _; rfl
  | cons k0 rest ih =>
    intro options kwargs h
    unfold collectOptions
    rw [h k0 (List.mem_cons_self k0 rest)]
    exact ih options kwargs (fun k hk => h k (List.mem_cons_of_mem k0 hk))

theorem collectOptions_nodup (ks : List String) :
    ∀ (options kwargs : Dict), (Dict.keys kwargs).Nodup →
      (Dict.keys (collectOptions ks options kwargs).2).Nodup := by
  induction ks with
  | nil => intro _ kwargs h; exact h
  | cons k0 rest ih =>
    intro options kwargs h
    unfold collectOptions
    cases hg : Dict.get? kwargs k0 with
    | some w => exact ih _ _ (Dict.nodup_keys_erase kwargs k0 h)
    | none => exact ih _ _ h

theorem mem_optionKeys_ne_reserved (k : String) (hk : k ∈ optionKeys) :
    k ≠ "tools" ∧ k ≠ "options" ∧ k ≠ "model" ∧ k ≠ "messages" ∧ k ≠ "stream" := by
  simp only [optionKeys, List.mem_cons, List.not_mem_nil, or_false] at hk
  rcases hk with rfl | rfl | rfl | rfl | rfl | rfl <;>
    exact ⟨by decide, by decide, by decide, by decide, by decide⟩

theorem get?_basePayload_other (model messages : Val) (k : String)
    (h1 : k ≠ "model") (h2 : k ≠ "messages") (h3 : k ≠ "stream") :
    Dict.get? (basePayload model messages) k = none := by
  simp [basePayload, Dict.get?, Ne.symm h1, Ne.symm h2, Ne.symm h3]

theorem get?_payloadAfterTools_other (model messages : Val) (kwargs : Dict) (k : String)
    (h1 : k ≠ "model") (h2 : k ≠ "messages") (h3 : k ≠ "stream") (h4 : k ≠ "tools") :
    Dict.get? (payloadAfterTools model messages kwargs) k = none := by
  unfold payloadAfterTools
  cases hg : Dict.get? kwargs "tools" with
  | some t =>
    rw [Dict.get?_insert_ne _ _ _ _ (Ne.symm h4)]
    exact get?_basePayload_other model messages k h1 h2 h3
  | none => exact get?_basePayload_other model messages k h1 h2 h3

theorem get?_payloadAfterTools_tools (model messages : Val) (kwargs : Dict) (t : Val)
    (ht : Dict.get? kwargs "tools" = some t) :
    Dict.get? (payloadAfterTools model messages kwargs) "tools" = some t := by
  unfold payloadAfterTools
  rw [ht]
  exact Dict.get?_insert_self _ _ _

theorem get?_kwargsAfterTools_ne (kwargs : Dict) (k : String) (h : k ≠ "tools") :
    Dict.get? (kwargsAfterTools kwargs) k = Dict.get? kwargs k := by
  unfold kwargsAfterTools
  cases hg : Dict.get? kwargs "tools" with
  | some t => exact Dict.get?_erase_ne kwargs "tools" k (Ne.symm h)
  | none => rfl

theorem get?_kwargsAfterTools_tools (kwargs : Dict) (t : Val)
    (h : Dict.get? kwargs "tools" = some t) :
    Dict.get? (kwargsAfterTools kwargs) "tools" = none := by
  unfold kwargsAfterTools
  rw [h]
  exact Dict.get?_erase_self kwargs "tools"

theorem nodup_keys_kwargsAfterTools (kwargs : Dict) (h : (Dict.keys kwargs).Nodup) :
    (Dict.keys (kwargsAfterTools kwargs)).Nodup := by
  unfold kwargsAfterTools
  cases Dict.get? kwargs "tools" with
  | some t => exact Dict.nodup_keys_erase kwargs "tools" h
  | none => exact h

theorem isEmpty_eq_false_of_get? (d : Dict) (k : String) (v : Val)
    (h : Dict.get? d k = some v) : Dict.isEmpty d = false := by
  cases d with
  | nil => simp [Dict.get?] at h
  | cons p rest => rfl

theorem get?_remainingKwargs_other (kwargs : Dict) (k : String)
    (h1 : k ∉ optionKeys) (h2 : k ≠ "tools") :
    Dict.get? (remainingKwargs kwargs) k = Dict.get? kwargs k := by
  unfold remainingKwargs
  rw [(collectOptions_not_mem optionKeys k [] (kwargsAfterTools kwargs) h1).2]
  exact get?_kwargsAfterTools_ne kwargs k h2

/-! ### Claim theorems -/

/-- C1 counterexample: the claim fails as stated, because a kwarg
literally named `options` survives the option-key sweep and the final
`payload.update(kwargs)` overwrites `payload["options"]`.  With kwargs
`{"temperature": 1, "options": "x"}`, the payload's `options` entry is
the string `"x"`, which is not a mapping holding the temperature. -/
theorem c1_counterexample :
    Dict.get? (chat_payload (Val.vstr "m") (Val.vlist [])
        [("temperature", Val.vnum 1), ("options", Val.vstr "x")]) "options" =
      some (Val.vstr "x") ∧
    ∀ o : List (String × Val), Val.vstr "x" ≠ Val.vobj o :=
  ⟨rfl, fun _ h => Val.noConfusion h⟩

/-- C1 (amended): provided kwargs does not itself contain a key named
`options`, every option key among the six present in kwargs is absent
from the payload top level and present with an identical value inside the
nested `payload["options"]` mapping, and when none of the six is present
the payload contains no `options` key at all. -/
theorem c1_option_keys_nested (model messages : Val) (kwargs : Dict)
    (hopt : Dict.get? kwargs "options" = none) :
    (∀ k, k ∈ optionKeys → ∀ v, Dict.get? kwargs k = some v →
        Dict.get? (chat_payload model messages kwargs) k = none ∧
        ∃ o, Dict.get? (chat_payload model messages kwargs) "options" =
            some (Val.vobj o) ∧
          Dict.get? o k = some v) ∧
    ((∀ k, k ∈ optionKeys → Dict.get? kwargs k = none) →
        Dict.get? (chat_payload model messages kwargs) "options" = none) := by
  have hoptkA : Dict.get? (kwargsAfterTools kwargs) "options" = none := by
    rw [get?_kwargsAfterTools_ne kwargs "options" (by decide)]
    exact hopt
  have hremOpt : Dict.get? (remainingKwargs kwargs) "options" = none := by
    unfold remainingKwargs
    rw [(collectOptions_not_mem optionKeys "options" []
      (kwargsAfterTools kwargs) (by decide)).2]
    exact hoptkA
  constructor
  · intro k hk v hv
    obtain ⟨hkT, hkO, hkMo, hkMe, hkS⟩ := mem_optionKeys_ne_reserved k hk
    have hvA : Dict.get? (kwargsAfterTools kwargs) k = some v := by
      rw [get?_kwargsAfterTools_ne kwargs k hkT]
      exact hv
    have hco := collectOptions_mem optionKeys k [] (kwargsAfterTools kwargs) v
      hk (by decide) hvA
    have hO : Dict.get? (optionsDict kwargs) k = some v := hco.1
    have hK2 : Dict.get? (remainingKwargs kwargs) k = none := hco.2
    have hne : Dict.isEmpty (optionsDict kwargs) = false :=
      isEmpty_eq_false_of_get? _ k v hO
    constructor
    · unfold chat_payload
      rw [Dict.get?_update_of_absent _ _ k hK2, hne, if_neg Bool.false_ne_true,
        Dict.get?_insert_ne _ _ _ _ (Ne.symm hkO)]
      exact get?_payloadAfterTools_other model messages kwargs k hkMo hkMe hkS hkT
    · refine ⟨optionsDict kwargs, ?_, hO⟩
      unfold chat_payload
      rw [Dict.get?_update_of_absent _ _ "options" hremOpt, hne,
        if_neg Bool.false_ne_true, Dict.get?_insert_self]
  · intro hnone
    have hempty : optionsDict kwargs = [] := by
      unfold optionsDict
      refine collectOptions_no_options optionKeys [] (kwargsAfterTools kwargs) ?_
      intro k hk
      rw [get?_kwargsAfterTools_ne kwargs k (mem_optionKeys_ne_reserved k hk).1]
      exact hnone k hk
    unfold chat_payload
    rw [Dict.get?_update_of_absent _ _ "options" hremOpt, hempty]
    show Dict.get? (payloadAfterTools model messages kwargs) "options" = none
    exact get?_payloadAfterTools_other model messages kwargs "options"
      (by decide) (by decide) (by decide) (by decide)

/-- Witness for the amended C1 at a concrete input: with kwargs
`{"temperature": 2}` the payload nests the temperature under `options`
and has no top-level `temperature` key. -/
theorem c1_option_keys_nested_witness :
    Dict.get? (chat_payload (Val.vstr "llama3") (Val.vlist [])
        [("temperature", Val.vnum 2)]) "temperature" = none ∧
    ∃ o, Dict.get? (chat_payload (Val.vstr "llama3") (Val.vlist [])
        [("temperature", Val.vnum 2)]) "options" = some (Val.vobj o) ∧
      Dict.get? o "temperature" = some (Val.vnum 2) :=
  (c1_option_keys_nested (Val.vstr "llama3") (Val.vlist [])
      [("temperature", Val.vnum 2)] rfl).1
    "temperature" (by decide) (Val.vnum 2) rfl

/-- C6: every kwargs entry remaining after `tools` and the six option
keys are consumed is merged into the payload top level as the last
construction step, with last-write-wins semantics — in particular a
remaining kwarg named `model`, `messages`, `stream` or `options`
overwrites the previously placed value of that payload key. -/
theorem c6_remaining_kwargs_overwrite (model messages : Val) (kwargs : Dict)
    (hnd : (Dict.keys kwargs).Nodup) (k : String) (v : Val)
    (h1 : k ∉ optionKeys) (h2 : k ≠ "tools")
    (hv : Dict.get? kwargs k = some v) :
    Dict.get? (chat_payload model messages kwargs) k = some v := by
  have hrem : Dict.get? (remainingKwargs kwargs) k = some v := by
    rw [get?_remainingKwargs_other kwargs k h1 h2]
    exact hv
  have hndrem : (Dict.keys (remainingKwargs kwargs)).Nodup := by
    unfold remainingKwargs
    exact collectOptions_nodup optionKeys [] (kwargsAfterTools kwargs)
      (nodup_keys_kwargsAfterTools kwargs hnd)
  unfold chat_payload
  exact Dict.get?_update_of_present _ _ k v hndrem hrem

/-- Witness for C6 at a concrete input: a remaining kwarg named `model`
overwrites the `model` entry placed by the base payload. -/
theorem c6_remaining_kwargs_overwrite_witness :
    Dict.get? (chat_payload (Val.vstr "m") (Val.vlist [])
        [("model", Val.vstr "other")]) "model" = some (Val.vstr "other") :=
  c6_remaining_kwargs_overwrite (Val.vstr "m") (Val.vlist [])
    [("model", Val.vstr "other")] (by decide) "model" (Val.vstr "other")
    (by decide) (by decide) rfl

/-- C7: when kwargs contains `tools`, its value appears verbatim at the
payload top level under `tools`, the constructed `options` sub-mapping
does not contain a `tools` key, and `tools` is removed from the kwargs
pool before the final merge (so it is not duplicated by the merge). -/
theorem c7_tools_top_level (model messages : Val) (kwargs : Dict)
    (t : Val) (ht : Dict.get? kwargs "tools" = some t) :
    Dict.get? (chat_payload model messages kwargs) "tools" = some t ∧
    Dict.get? (optionsDict kwargs) "tools" = none ∧
    Dict.get? (remainingKwargs kwargs) "tools" = none := by
  have hkA : Dict.get? (kwargsAfterTools kwargs) "tools" = none :=
    get?_kwargsAfterTools_tools kwargs t ht
  have hco := collectOptions_absent optionKeys "tools" [] (kwargsAfterTools kwargs) hkA
  have hO : Dict.get? (optionsDict kwargs) "tools" = none := by
    unfold optionsDict
    rw [hco.1]
    rfl
  have hK2 : Dict.get? (remainingKwargs kwargs) "tools" = none := hco.2
  refine ⟨?_, hO, hK2⟩
  unfold chat_payload
  rw [Dict.get?_update_of_absent _ _ "tools" hK2]
  cases hE : Dict.isEmpty (optionsDict kwargs) with
  | true =>
    show Dict.get? (payloadAfterTools model messages kwargs) "tools" = some t
    exact get?_payloadAfterTools_tools model messages kwargs t ht
  | false =>
    show Dict.get? (Dict.insert (payloadAfterTools model messages kwargs)
      "options" (Val.vobj (optionsDict kwargs))) "tools" = some t
    rw [Dict.get?_insert_ne _ _ _ _ (by decide : "options" ≠ "tools")]
    exact get?_payloadAfterTools_tools model messages kwargs t ht

/-- Witness for C7 at a concrete input: a `tools` kwarg lands at the
payload top level and nowhere else. -/
theorem c7_tools_top_level_witness :
    Dict.get? (chat_payload (Val.vstr "llama3") (Val.vlist [])
        [("tools", Val.vlist [Val.vstr "f"])]) "tools" =
      some (Val.vlist [Val.vstr "f"]) ∧
    Dict.get? (optionsDict [("tools", Val.vlist [Val.vstr "f"])]) "tools" = none ∧
    Dict.get? (remainingKwargs [("tools", Val.vlist [Val.vstr "f"])]) "tools" = none :=
  c7_tools_top_level (Val.vstr "llama3") (Val.vlist [])
    [("tools", Val.vlist [Val.vstr "f"])] (Val.vlist [Val.vstr "f"]) rfl

/-- C8: the outbound request target is the resolved base URL with every
trailing slash stripped, concatenated with the fixed path `/api/chat`;
the base URL resolves to a non-empty explicit config `api_url` when
given, else the `OLLAMA_API_URL` environment value, else the literal
default; and `api_url="http://host:1234/"` yields the target
`http://host:1234/api/chat`. -/
theorem c8_request_target :
    (∀ apiUrl envVar : Option String,
      request_url (resolve_api_url apiUrl envVar) =
        rstripSlashes (resolve_api_url apiUrl envVar) ++ "/api/chat") ∧
    (∀ (envVar : Option String) (s : String), s ≠ "" →
      resolve_api_url (some s) envVar = s) ∧
    (∀ e : String, resolve_api_url none (some e) = e) ∧
    resolve_api_url none none = "http://localhost:11434" ∧
    (∀ envVar : Option String,
      request_url (resolve_api_url (some "http://host:1234/") envVar) =
        "http://host:1234/api/chat") := by
  refine ⟨fun _ _ => rfl, ?_, fun _ => rfl, rfl, fun _ => rfl⟩
  intro envVar s hs
  show (if s = "" then envVar.getD defaultApiUrl else s) = s
  rw [if_neg hs]

/-- Witness for C8 at a concrete input: an explicit non-empty config URL
wins over a set environment variable, and the target appends the fixed
path after stripping the trailing slash. -/
theorem c8_request_target_witness :
    resolve_api_url (some "http://host:1234/") (some "http://other:1") =
      "http://host:1234/" ∧
    request_url (resolve_api_url (some "http://host:1234/") (some "http://other:1")) =
      "http://host:1234/api/chat" :=
  ⟨c8_request_target.2.1 (some "http://other:1") "http://host:1234/" (by decide),
   c8_request_target.2.2.2.2 (some "http://other:1")⟩

/-- C9 counterexample: with no config `api_url` and `OLLAMA_API_URL` set
to the empty string, `os.getenv` returns that empty value (its default
applies only when the variable is unset), so the resolved base URL is the
empty string. -/
theorem c9_counterexample : resolve_api_url none (some "") = "" := rfl

/-- Helper: the environment-or-default fallback is non-empty unless the
environment variable is set to the empty string. -/
theorem getD_default_ne_empty (envVar : Option String) (henv : envVar ≠ some "") :
    envVar.getD defaultApiUrl ≠ "" := by
  cases envVar with
  | none => decide
  | some e =>
    intro h
    exact henv (congrArg some h)

/-- C9 (amended): the base URL resolved at construction time is a
non-empty string, provided the `OLLAMA_API_URL` environment variable is
not set to the empty string. -/
theorem c9_resolved_url_nonempty (apiUrl envVar : Option String)
    (henv : envVar ≠ some "") : resolve_api_url apiUrl envVar ≠ "" := by
  unfold resolve_api_url
  cases apiUrl with
  | none => exact getD_default_ne_empty envVar henv
  | some s =>
    show (if s = "" then envVar.getD defaultApiUrl else s) ≠ ""
    by_cases hs : s = ""
    · rw [if_pos hs]
      exact getD_default_ne_empty envVar henv
    · rw [if_neg hs]
      exact hs

/-- Witness for the amended C9 at a concrete input: with nothing
configured the resolved URL is the (non-empty) default. -/
theorem c9_resolved_url_nonempty_witness : resolve_api_url none none ≠ "" :=
  c9_resolved_url_nonempty none none (by decide)

/-- C10: a falsy config `api_url` (the empty string, or an absent/None
value encoded as `none`) is treated as absent — resolution falls through
to the `OLLAMA_API_URL` environment variable or the literal default,
exactly as when the key is missing; precedence is decided by truthiness
of the value, not by presence of the key. -/
theorem c10_falsy_config_fallthrough (envVar : Option String) :
    resolve_api_url (some "") envVar = resolve_api_url none envVar ∧
    resolve_api_url (some "") envVar = envVar.getD defaultApiUrl :=
  ⟨rfl, rfl⟩

/-- C2 counterexample: a 200 response whose body is not valid JSON makes
`response.json()` on line 83 raise outside the `try` block of lines
58-80, so a foreign (non-LLMError) exception escapes to the caller — the
execution neither returns a normalized response nor raises the provider
error. -/
theorem c2_counterexample :
    chat_completions_create "http://localhost:11434" (Val.vstr "m") (Val.vlist []) []
        (fun _ _ => TransportOutcome.ok ⟨200, "not json", none⟩) =
      Except.error (PyErr.jsonDecodeError "not json") ∧
    ∀ msg, PyErr.jsonDecodeError "not json" ≠ PyErr.llmError msg :=
  ⟨rfl, fun _ h => PyErr.noConfusion h⟩

/-- C2 (amended): every failure of the HTTP exchange itself — a non-200
response, a connection refusal, a transport status exception, or any
other transport exception — surfaces as the single provider error kind
`LLMError`; and a 200 response whose JSON body is an object whose
`message` field (when present) is itself an object returns a fully
normalized response.  Excluded by the amendment (see the counterexample):
a 200 response whose body fails to parse as JSON, or whose body or
`message` field is not an object, escapes as a foreign exception. -/
theorem c2_error_taxonomy (o : TransportOutcome)
    (hwf : ∀ r, o = TransportOutcome.ok r → r.status_code = 200 →
      ∃ fields, r.jsonBody = some (Val.vobj fields) ∧
        ∀ m, Dict.get? fields "message" = some m →
          ∃ mf, m = Val.vobj mf) :
    (∃ msg, handle_response o = Except.error (PyErr.llmError msg)) ∨
    (∃ resp, handle_response o = Except.ok resp) := by
  cases o with
  | ok r =>
    by_cases h200 : r.status_code = 200
    · right
      obtain ⟨fields, hbody, hmsg⟩ := hwf r rfl h200
      simp only [handle_response]
      rw [if_neg (fun hh : r.status_code ≠ 200 => hh h200), hbody]
      show ∃ resp, normalize_response (Val.vobj fields) = Except.ok resp
      simp only [normalize_response]
      cases hm : Dict.get? fields "message" with
      | none => exact ⟨_, rfl⟩
      | some m =>
        obtain ⟨mf, hmf⟩ := hmsg m hm
        subst hmf
        exact ⟨_, rfl⟩
    · left
      simp only [handle_response]
      rw [if_pos (h200 : r.status_code ≠ 200)]
      exact ⟨_, rfl⟩
  | connectError => exact Or.inl ⟨_, rfl⟩
  | httpStatusError d => exact Or.inl ⟨_, rfl⟩
  | otherException d => exact Or.inl ⟨_, rfl⟩

/-- Witness for the amended C2 at a concrete input: a connection refusal
ends in a raised LLMError. -/
theorem c2_error_taxonomy_witness :
    (∃ msg, handle_response TransportOutcome.connectError =
      Except.error (PyErr.llmError msg)) ∨
    (∃ resp, handle_response TransportOutcome.connectError = Except.ok resp) :=
  c2_error_taxonomy TransportOutcome.connectError (fun _ h => nomatch h)

/-- C3: every response received with status ≠ 200 raises the provider
error with message `Ollama request failed with status {status}:
{error_detail}`, where the detail is the `error` field of the JSON body
when the body is a JSON object containing one, and the raw response text
when the body does not parse as JSON or lacks an `error` field. -/
theorem c3_non_200_message (r : HttpResponse) (h : r.status_code ≠ 200) :
    handle_response (TransportOutcome.ok r) =
      Except.error (PyErr.llmError
        ("Ollama request failed with status " ++ toString r.status_code ++ ": "
          ++ Val.pyStr (errorDetail r))) ∧
    (∀ fields d, r.jsonBody = some (Val.vobj fields) →
      Dict.get? fields "error" = some d → errorDetail r = d) ∧
    (∀ fields, r.jsonBody = some (Val.vobj fields) →
      Dict.get? fields "error" = none → errorDetail r = Val.vstr r.text) ∧
    (r.jsonBody = none → errorDetail r = Val.vstr r.text) := by
  refine ⟨?_, ?_, ?_, ?_⟩
  · simp only [handle_response]
    rw [if_pos h]
  · intro fields d hbody herr
    unfold errorDetail
    rw [hbody]
    show (Dict.get? fields "error").getD (Val.vstr r.text) = d
    rw [herr]
    rfl
  · intro fields hbody herr
    unfold errorDetail
    rw [hbody]
    show (Dict.get? fields "error").getD (Val.vstr r.text) = Val.vstr r.text
    rw [herr]
    rfl
  · intro hbody
    unfold errorDetail
    rw [hbody]

/-- Witness for C3 at the spec's concrete input: a 500 response with body
`{"error": "boom"}` yields a message containing `status 500` and `boom`
(shown by explicit decomposition of the message). -/
theorem c3_non_200_message_witness :
    handle_response (TransportOutcome.ok ⟨500, "raw", some (Val.vobj [("error", Val.vstr "boom")])⟩) =
      Except.error (PyErr.llmError
        ("Ollama request failed with " ++ "status 500" ++ ": " ++ "boom")) :=
  ((c3_non_200_message ⟨500, "raw", some (Val.vobj [("error", Val.vstr "boom")])⟩
    (by decide)).1).trans rfl

/-- C4: a connection failure (the transport raises `httpx.ConnectError`)
makes `chat_completions_create` raise the provider error with exactly the
message `Connection failed: Ollama is likely not running. Start Ollama by
running \`ollama serve\` on your host.`, which begins with the text
`Connection failed`. -/
theorem c4_connect_error :
    (∀ (url : String) (model messages : Val) (kwargs : Dict)
        (transport : String → Dict → TransportOutcome),
      transport (request_url url) (chat_payload model messages kwargs) =
          TransportOutcome.connectError →
      chat_completions_create url model messages kwargs transport =
        Except.error (PyErr.llmError
          "Connection failed: Ollama is likely not running. Start Ollama by running `ollama serve` on your host.")) ∧
    ∃ rest,
      "Connection failed: Ollama is likely not running. Start Ollama by running `ollama serve` on your host." =
        "Connection failed" ++ rest := by
  constructor
  · intro url model messages kwargs transport htr
    unfold chat_completions_create
    rw [htr]
    rfl
  · exact ⟨": Ollama is likely not running. Start Ollama by running `ollama serve` on your host.", rfl⟩

/-- Witness for C4 at a concrete input: a transport that refuses every
connection makes the call raise the provider error with the fixed
message. -/
theorem c4_connect_error_witness :
    chat_completions_create "http://localhost:11434" (Val.vstr "m") (Val.vlist []) []
        (fun _ _ => TransportOutcome.connectError) =
      Except.error (PyErr.llmError
        "Connection failed: Ollama is likely not running. Start Ollama by running `ollama serve` on your host.") :=
  c4_connect_error.1 "http://localhost:11434" (Val.vstr "m") (Val.vlist []) []
    (fun _ _ => TransportOutcome.connectError) rfl

/-- C5: normalization maps `{"message": {"content": "hi", "tool_calls":
[{"id":1}]}}` to a single choice with content `"hi"` and tool_calls
`[{"id":1}]`; and any message object lacking these fields yields content
`""` with `tool_calls` left unset (`none`), not an empty sequence. -/
theorem c5_normalize (mfields : Dict)
    (hc : Dict.get? mfields "content" = none)
    (ht : Dict.get? mfields "tool_calls" = none) :
    normalize_response (Val.vobj [("message", Val.vobj mfields)]) =
      Except.ok ⟨[⟨⟨Val.vstr "", none⟩⟩]⟩ ∧
    normalize_response (Val.vobj [("message", Val.vobj
        [("content", Val.vstr "hi"),
         ("tool_calls", Val.vlist [Val.vobj [("id", Val.vnum 1)]])])]) =
      Except.ok ⟨[⟨⟨Val.vstr "hi",
        some (Val.vlist [Val.vobj [("id", Val.vnum 1)]])⟩⟩]⟩ := by
  constructor
  · show (Except.ok ⟨[⟨⟨(Dict.get? mfields "content").getD (Val.vstr ""),
        Dict.get? mfields "tool_calls"⟩⟩]⟩ : Except PyErr ChatCompletionResponse) = _
    rw [hc, ht]
    rfl
  · rfl

/-- Witness for C5 at the spec's concrete input: the empty message object
normalizes to empty content with `tool_calls` unset. -/
theorem c5_normalize_witness :
    normalize_response (Val.vobj [("message", Val.vobj [])]) =
      Except.ok ⟨[⟨⟨Val.vstr "", none⟩⟩]⟩ :=
  (c5_normalize [] rfl rfl).1

end Ollama
